import Mathlib

/-
Verification of the AgentStack observability pipeline against its
natural-language specification.

Each component is shallowly embedded from the Python source:
mutable objects become explicit state records, methods become state
transition functions, Python floats used for prices and scores are
modelled as exact rationals, and regular expressions are modelled by a
small executable backtracking engine over an explicit pattern AST.
-/

set_option maxHeartbeats 1000000

namespace AgentStack

/-! ### Ring buffer
Embedding of packages/sdk-python/src/agentstack/_internal/buffer.py.
The Python class wraps a collections.deque with maxlen = capacity:
appending to a full deque discards the oldest element.  The add method
additionally increments a dropped counter when the buffer is full. -/

structure RingBuffer (α : Type) where
  capacity : Nat
  buffer : List α
  dropped : Nat
deriving Repr, DecidableEq

namespace RingBuffer

/-- RingBuffer.__init__: empty buffer, dropped counter zero. -/
def init (α : Type) (capacity : Nat) : RingBuffer α :=
  { capacity := capacity, buffer := [], dropped := 0 }

/-- RingBuffer.add: increment the dropped counter when full, then append;
the deque maxlen semantics keep only the last capacity elements. -/
def add (b : RingBuffer α) (item : α) : RingBuffer α :=
  let dropped := if b.buffer.length ≥ b.capacity then b.dropped + 1 else b.dropped
  let grown := b.buffer ++ [item]
  { b with dropped := dropped, buffer := grown.drop (grown.length - b.capacity) }

/-- RingBuffer.drain: remove and return all items. -/
def drain (b : RingBuffer α) : List α × RingBuffer α :=
  (b.buffer, { b with buffer := [] })

/-- RingBuffer.size property. -/
def size (b : RingBuffer α) : Nat :=
  b.buffer.length

/-- A sequence of add calls, in order. -/
def addAll (b : RingBuffer α) (items : List α) : RingBuffer α :=
  items.foldl add b

end RingBuffer

/-! ### JSON-ish values and ordered dictionaries
Python dicts are modelled as insertion-ordered association lists. -/

/-- Scalar JSON values plus an extra constructor for composite values
the gateway never inspects (nested dicts and lists).  Python booleans
are instances of int, which matters for the isinstance checks in
validate_span. -/
inductive JVal where
  | jstr (s : String)
  | jnum (q : ℚ)
  | jbool (b : Bool)
  | jnull
  | jother (tag : Nat)
deriving DecidableEq, Repr

/-- Python dict.get for an insertion-ordered association list. -/
def dlookup {β : Type} (k : String) : List (String × β) → Option β
  | [] => none
  | (k', v) :: rest => if k' = k then some v else dlookup k rest

/-- Python dict item assignment: overwrite an existing key in place,
otherwise append at the end (dicts preserve insertion order). -/
def dictSet {β : Type} (d : List (String × β)) (k : String) (v : β) : List (String × β) :=
  if (dlookup k d).isSome then d.map (fun e => if e.1 = k then (k, v) else e)
  else d ++ [(k, v)]

/-! ### Ingest gateway
Embedding of packages/collector/src/collector/server.py (ingest_traces)
and packages/collector/src/collector/validators.py (validate_span). -/

def MAX_PAYLOAD_BYTES : Nat := 5 * 1024 * 1024

/-- A span payload is a JSON object: ordered field map. -/
abbrev SpanData := List (String × JVal)

/-- isinstance(v, (int, float)) — Python bool is a subtype of int. -/
def isNumber : JVal → Bool
  | .jnum _ => true
  | .jbool _ => true
  | _ => false

/-- validate_span from validators.py: required fields present, span_id
and trace_id are non-empty strings, start_time and end_time are numbers.
The Python function raises ValueError on failure; the gateway catches it
and drops the span, so a Bool verdict is the faithful projection. -/
def validate_span (d : SpanData) : Bool :=
  (["span_id", "trace_id", "name", "start_time", "end_time"].all
      fun f => (dlookup f d).isSome) &&
  (match dlookup "span_id" d with | some (.jstr s) => s ≠ "" | _ => false) &&
  (match dlookup "trace_id" d with | some (.jstr s) => s ≠ "" | _ => false) &&
  (match dlookup "start_time" d with | some v => isNumber v | none => false) &&
  (match dlookup "end_time" d with | some v => isNumber v | none => false)

/-- One POST /v1/traces request, after the HTTP layer:
bodyLen is len(body_bytes); authProjectId is the project the API key
resolves to if verify_api_key would succeed (none means it raises 401);
decoded is the spans_input list obtained from json.loads plus the
dict-with-spans / bare-list / single-object normalization (none means
json.loads raises). -/
structure IngestRequest where
  bodyLen : Nat
  authProjectId : Option String
  decoded : Option (List SpanData)

/-- Observable outcome of one request: HTTP status, whether the auth
path (verify_api_key) was ever invoked, and the spans appended to the
spans.ingest log, in order. -/
structure IngestOutcome where
  status : Nat
  authInvoked : Bool
  queued : List SpanData
deriving DecidableEq

/-- ingest_traces from server.py, step for step: body size check first
(413), then API key verification (401), then JSON decoding (400), then
per-span validation with invalid spans dropped, project_id injection,
and append to the log; finally 202. -/
def ingest_traces (req : IngestRequest) : IngestOutcome :=
  if req.bodyLen > MAX_PAYLOAD_BYTES then
    { status := 413, authInvoked := false, queued := [] }
  else
    match req.authProjectId with
    | none => { status := 401, authInvoked := true, queued := [] }
    | some pid =>
      match req.decoded with
      | none => { status := 400, authInvoked := true, queued := [] }
      | some spansInput =>
        let accepted := (spansInput.filter (fun d => validate_span d)).map
          (fun d => dictSet d "project_id" (.jstr pid))
        { status := 202, authInvoked := true, queued := accepted }

/-! ### Auth fast cache
Embedding of packages/collector/src/collector/auth.py.  The SHA-256
fast hash and the pbkdf2 slow-hash verifier are library functions, so
they enter the model as function parameters; the projects table is the
list of (id, api_key_hash) rows in scan order. -/

def CACHE_MAX_SIZE : Nat := 1000

/-- The slow path of verify_api_key: scan all project rows in order and
return the id of the first row whose stored hash verifies the key. -/
def scanProjects (slowVerify : String → String → Bool)
    (db : List (String × String)) (key : String) : Option String :=
  (db.find? (fun row => slowVerify key row.2)).map (fun row => row.1)

/-- verify_api_key from auth.py as a transition on the module-level
_verified_keys_cache.  Returns the new cache and the response: some
project_id, or none when HTTPException 401 is raised.  mockRedis is the
MOCK_REDIS environment flag. -/
def verify_api_key (fastHash : String → String) (slowVerify : String → String → Bool)
    (mockRedis : Bool) (db : List (String × String))
    (cache : List (String × String)) (key : String) :
    List (String × String) × Option String :=
  if ¬ key.startsWith "ak_" then (cache, none)
  else if mockRedis then (cache, some "bench_project_id")
  else
    match dlookup (fastHash key) cache with
    | some pid => (cache, some pid)
    | none =>
      match scanProjects slowVerify db key with
      | some pid =>
        let cache' :=
          if cache.length < CACHE_MAX_SIZE then cache ++ [(fastHash key, pid)] else cache
        (cache', some pid)
      | none => (cache, none)

/-- The cache state after a sequence of verify_api_key calls starting
from the empty module-level cache. -/
def runVerifies (fastHash : String → String) (slowVerify : String → String → Bool)
    (mockRedis : Bool) (db : List (String × String)) (keys : List String) :
    List (String × String) :=
  keys.foldl (fun c k => (verify_api_key fastHash slowVerify mockRedis db c k).1) []

/-- Every cache entry was confirmed: its fast hash comes from a key
whose full slow-hash scan over the projects table returns exactly the
cached project id. -/
def cacheConfirmed (fastHash : String → String) (slowVerify : String → String → Bool)
    (db : List (String × String)) (cache : List (String × String)) : Prop :=
  ∀ e ∈ cache, ∃ key, fastHash key = e.1 ∧ scanProjects slowVerify db key = some e.2

/-! ### HTTP transport
Embedding of packages/sdk-python/src/agentstack/_internal/transport.py.
One iteration of the retry loop is driven by the outcome the network
produces for that attempt; sleeps are in whole seconds (the Python
floats 1.0 and 2.0 are exact). -/

/-- What one urllib attempt can yield: a returned response with a
status code, a raised HTTPError carrying a status code, a raised
URLError / OSError / TimeoutError (connection error or timeout), or any
other unexpected exception. -/
inductive Attempt where
  | resp (status : Nat)
  | httpErr (code : Nat)
  | connErr
  | unexpected
deriving DecidableEq, Repr

def RETRYABLE_STATUS_CODES : List Nat := [429, 500, 502, 503, 504]

/-- TransportResult: success flag, last status code, retries used. -/
structure TransportResult where
  success : Bool
  status : Option Nat
  retriesUsed : Nat
deriving DecidableEq, Repr

/-- The observable trace of one send call: the returned result, the
backoff sleeps performed between attempts (in seconds), and how many
loop iterations (attempts) actually ran. -/
structure SendTrace where
  result : TransportResult
  sleeps : List Nat
  attemptsMade : Nat
deriving DecidableEq, Repr

/-- The decision the loop body takes for one attempt outcome:
a 2xx response returns success; an HTTPError outside the retryable set
returns failure immediately; everything else records last_status /
last_error and falls through to the backoff-and-retry path. -/
inductive StepKind where
  | stopSuccess (s : Nat)
  | stopFail (c : Nat)
  | retry (st : Option Nat)
deriving DecidableEq, Repr

def classifyAttempt : Attempt → StepKind
  | .resp s => if 200 ≤ s ∧ s < 300 then .stopSuccess s else .retry (some s)
  | .httpErr c => if c ∈ RETRYABLE_STATUS_CODES then .retry (some c) else .stopFail c
  | .connErr => .retry none
  | .unexpected => .retry none

/-- The retry loop of HttpTransport.send.  attempt is the current loop
index, lastStatus the running last_status variable, and the list holds
the outcome each attempt would produce.  Backoff before a retry is
BACKOFF_BASE_S * BACKOFF_MULTIPLIER ^ attempt = 2 ^ attempt seconds,
and is skipped after the final attempt (the loop then falls off the end
and returns the exhausted result with retries_used = max_retries). -/
def sendGo (maxRetries : Nat) : Nat → Option Nat → List Attempt → SendTrace
  | attempt, lastStatus, [] => ⟨⟨false, lastStatus, maxRetries⟩, [], attempt⟩
  | attempt, lastStatus, a :: rest =>
    if attempt ≥ maxRetries then ⟨⟨false, lastStatus, maxRetries⟩, [], attempt⟩
    else
      match classifyAttempt a with
      | .stopSuccess s => ⟨⟨true, some s, attempt⟩, [], attempt + 1⟩
      | .stopFail c => ⟨⟨false, some c, attempt⟩, [], attempt + 1⟩
      | .retry st =>
        if attempt + 1 < maxRetries then
          let t := sendGo maxRetries (attempt + 1) st rest
          ⟨t.result, 2 ^ attempt :: t.sleeps, t.attemptsMade⟩
        else ⟨⟨false, st, maxRetries⟩, [], attempt + 1⟩

/-- HttpTransport.send: empty batches succeed immediately with a
synthetic 200; a serialization failure returns failure with no attempt;
otherwise the retry loop runs starting at attempt 0. -/
def send (spansEmpty : Bool) (serializeOk : Bool) (maxRetries : Nat)
    (outcomes : List Attempt) : SendTrace :=
  if spansEmpty then ⟨⟨true, some 200, 0⟩, [], 0⟩
  else if ¬ serializeOk then ⟨⟨false, none, 0⟩, [], 0⟩
  else sendGo maxRetries 0 none outcomes

/-- Outcomes urllib can actually produce: urlopen only returns 2xx
responses (its error processor raises HTTPError otherwise), and the
generic unexpected-exception branch is out of scope of the claim. -/
def realisticAttempt : Attempt → Prop
  | .resp s => 200 ≤ s ∧ s < 300
  | .unexpected => False
  | _ => True

/-- The attempt outcomes the code retries after: connection errors and
timeouts, or an HTTP status in the retryable set. -/
def retryableAttempt : Attempt → Prop
  | .connErr => True
  | .httpErr c => c ∈ RETRYABLE_STATUS_CODES
  | _ => False

/-! ### A small regular-expression engine
Python's re module is a library, so the patterns the workers and the
sanitizer compile are transcribed into an explicit AST and run by an
executable backtracking matcher with Python's ordered-alternative,
greedy semantics.  Fuel bounds the recursion depth; it is chosen large
enough for every transcribed pattern (pattern size plus a few frames
per consumed character). -/

/-- Python \w over the ASCII payloads the rules see. -/
def isWordChar (c : Char) : Bool := c.isAlphanum || c = '_'

def isWordO : Option Char → Bool
  | none => false
  | some c => isWordChar c

/-- Python \s (ASCII range). -/
def isSpaceC (c : Char) : Bool :=
  c = ' ' || c = '\t' || c = '\n' || c = '\r' || c = '\x0b' || c = '\x0c'

/-- Pattern AST: character class, literal (case-sensitive or not),
sequencing, ordered alternation, greedy option, greedy repetition with
a minimum count (a{min,}), and the \b word boundary. -/
inductive RE where
  | eps
  | cls (p : Char → Bool)
  | lit (s : List Char)
  | litCI (s : List Char)
  | seq (a b : RE)
  | alt (a b : RE)
  | opt (a : RE)
  | rep (a : RE) (minCount : Nat)
  | bnd

/-- Consume a literal, tracking the previous character for \b. -/
def stripLit (ci : Bool) : List Char → Option Char → List Char →
    Option (Option Char × List Char)
  | [], prev, cs => some (prev, cs)
  | p :: ps, _, c :: rest =>
    if (if ci then p.toLower = c.toLower else p = c) then stripLit ci ps (some c) rest
    else none
  | _ :: _, _, [] => none

/-- Backtracking matcher in continuation-passing style.  The
continuation receives the previous character and the rest of the input;
alternatives are tried in pattern order and repetition is greedy, as in
Python.  Returns the continuation's answer of the first parse that
succeeds. -/
def reMatch : Nat → RE → Option Char → List Char →
    (Option Char → List Char → Option Nat) → Option Nat
  | 0, _, _, _, _ => none
  | fuel + 1, re, prev, cs, k =>
    match re with
    | .eps => k prev cs
    | .cls p =>
      match cs with
      | [] => none
      | c :: rest => if p c then k (some c) rest else none
    | .lit s =>
      match stripLit false s prev cs with
      | some (p', rest) => k p' rest
      | none => none
    | .litCI s =>
      match stripLit true s prev cs with
      | some (p', rest) => k p' rest
      | none => none
    | .seq a b => reMatch fuel a prev cs (fun p' cs' => reMatch fuel b p' cs' k)
    | .alt a b =>
      (reMatch fuel a prev cs k).orElse (fun _ => reMatch fuel b prev cs k)
    | .opt a => (reMatch fuel a prev cs k).orElse (fun _ => k prev cs)
    | .rep a m =>
      match m with
      | n + 1 => reMatch fuel a prev cs (fun p' cs' => reMatch fuel (.rep a n) p' cs' k)
      | 0 =>
        (reMatch fuel a prev cs (fun p' cs' => reMatch fuel (.rep a 0) p' cs' k)).orElse
          (fun _ => k prev cs)
    | .bnd => if isWordO prev != isWordO cs.head? then k prev cs else none

/-- Fuel that covers every pattern of this file on the given input. -/
def fuelFor (cs : List Char) : Nat := 400 + 20 * cs.length

/-- re.search: try a match at every start position. -/
def reSearchFrom (fuel : Nat) (re : RE) : Option Char → List Char → Bool
  | prev, cs =>
    match reMatch fuel re prev cs (fun _ rest => some rest.length) with
    | some _ => true
    | none =>
      match cs with
      | [] => false
      | c :: rest => reSearchFrom fuel re (some c) rest

def reSearch (re : RE) (s : String) : Bool :=
  reSearchFrom (fuelFor s.data) re none s.data

/-- re.sub: scan left to right, replace each non-overlapping match and
continue after it.  None of the patterns of this file can match the
empty string, so a zero-width match (kept only for totality) and the
end-of-string position need no replacement handling. -/
def reSubGo (re : RE) (repl : List Char) : Nat → Option Char → List Char → List Char
  | 0, _, cs => cs
  | _ + 1, _, [] => []
  | fuel + 1, prev, c :: rest =>
    match reMatch (fuelFor (c :: rest)) re prev (c :: rest)
        (fun _ rem => some rem.length) with
    | some remLen =>
      let consumed := (c :: rest).length - remLen
      if consumed = 0 then c :: reSubGo re repl fuel (some c) rest
      else
        repl ++ reSubGo re repl fuel ((c :: rest).take consumed).getLast?
          ((c :: rest).drop consumed)
    | none => c :: reSubGo re repl fuel (some c) rest

def reSub (re : RE) (repl : String) (s : String) : String :=
  String.mk (reSubGo re repl.data (s.data.length + 1) none s.data)

/-- a{n}: exactly n copies. -/
def reN (a : RE) : Nat → RE
  | 0 => .eps
  | n + 1 => .seq a (reN a n)

def reStr (s : String) : RE := .lit s.data

def reStrCI (s : String) : RE := .litCI s.data

/-! ### Worker payload model
The msgpack-decoded span dict the workers receive.  Attribute values
are strings or integers; composite event entries carry their own
attributes dict. -/

inductive AVal where
  | astr (s : String)
  | aint (n : Int)
deriving DecidableEq, Repr

/-- str(v). -/
def pyStr : AVal → String
  | .astr s => s
  | .aint n => toString n

/-- Python truthiness of an attribute value. -/
def truthy : AVal → Bool
  | .astr s => s ≠ ""
  | .aint n => n ≠ 0

/-- int(v): identity on ints, digit parsing on strings (a string that
does not parse raises ValueError, hence none). -/
def pyInt : AVal → Option Int
  | .aint n => some n
  | .astr s => s.toInt?

inductive WEvent where
  | withAttrs (attributes : List (String × AVal))
  | other (tag : Nat)
deriving DecidableEq

structure WSpan where
  attributes : List (String × AVal)
  events : List WEvent
  duration_ms : Option AVal
  project_id : Option String
  trace_id : Option String
  span_id : Option String
  start_time : Option AVal
deriving DecidableEq

/-! ### Security rules
Embedding of workers/rules/injection.py, workers/rules/pii.py and
workers/rules/anomaly.py. -/

def INJECTION_PATTERNS : List String :=
  ["ignore previous instructions", "fail to recall", "system prompt",
   "you are not a", "DAN mode", "jailbreak", "dev mode", "roleplay as"]

/-- The patterns are plain words compiled with re.IGNORECASE, so each
compiled pattern is a case-insensitive literal. -/
def COMPILED_PATTERNS : List RE := INJECTION_PATTERNS.map reStrCI

/-- check_injection from rules/injection.py: 40 points per pattern with
a match, capped at 100.  Python float scores are exact here, modelled
as rationals. -/
def check_injection (text : String) : ℚ :=
  if text = "" then 0
  else
    let score := COMPILED_PATTERNS.foldl
      (fun sc p => if reSearch p text then sc + 40 else sc) (0 : ℚ)
    min score 100

def emailLocalC (c : Char) : Bool :=
  c.isAlphanum || c = '.' || c = '_' || c = '%' || c = '+' || c = '-'

def emailDomC (c : Char) : Bool := c.isAlphanum || c = '.' || c = '-'

def digitC (c : Char) : Bool := c.isDigit

def upperDigitC (c : Char) : Bool := c.isDigit || c.isUpper

/-- [a-zA-Z0-9._%+-]+@[a-zA-Z0-9.-]+\.[a-zA-Z]{2,} -/
def piiEmailRE : RE :=
  .seq (.rep (.cls emailLocalC) 1)
    (.seq (reStr "@")
      (.seq (.rep (.cls emailDomC) 1)
        (.seq (reStr ".") (.rep (.cls Char.isAlpha) 2))))

/-- \b\d{3}-\d{2}-\d{4}\b -/
def piiSsnRE : RE :=
  .seq .bnd
    (.seq (reN (.cls digitC) 3)
      (.seq (reStr "-")
        (.seq (reN (.cls digitC) 2)
          (.seq (reStr "-") (.seq (reN (.cls digitC) 4) .bnd)))))

/-- \b(?:\d{4}[- ]?){3}\d{4}\b -/
def piiCcRE : RE :=
  .seq .bnd
    (.seq (reN (.seq (reN (.cls digitC) 4) (.opt (.cls (fun c => c = '-' || c = ' ')))) 3)
      (.seq (reN (.cls digitC) 4) .bnd))

/-- AKIA[0-9A-Z]{16} -/
def piiAwsRE : RE := .seq (reStr "AKIA") (reN (.cls upperDigitC) 16)

/-- sk-[a-zA-Z0-9]{48} -/
def piiOpenaiRE : RE := .seq (reStr "sk-") (reN (.cls Char.isAlphanum) 48)

/-- The PATTERNS dict of rules/pii.py in insertion order. -/
def PII_PATTERNS : List (String × RE) :=
  [("EMAIL", piiEmailRE), ("SSN", piiSsnRE), ("CREDIT_CARD", piiCcRE),
   ("AWS_KEY", piiAwsRE), ("OPENAI_KEY", piiOpenaiRE)]

/-- check_pii from rules/pii.py: the names of the patterns with a
match, in dict order. -/
def check_pii (text : String) : List String :=
  if text = "" then []
  else (PII_PATTERNS.filter (fun p => reSearch p.2 text)).map (fun p => p.1)

/-- check_anomaly from rules/anomaly.py.  A non-integer duration value
would raise in Python before the comparison; the model reads it as the
falsy default 0, which the claims never exercise. -/
def check_anomaly (span : WSpan) : List String :=
  let duration : Int :=
    match span.duration_ms with
    | some (.aint n) => n
    | _ => 0
  (if duration > 300000 then ["Excessive duration: " ++ toString duration ++ "ms"]
   else []) ++
  (let tt : Int :=
    match dlookup "llm.usage.total_tokens" span.attributes with
    | some v => (pyInt v).getD 0
    | none => 0
   if tt > 32000 then ["High token usage: " ++ toString tt] else [])

/-! ### Security engine
Embedding of workers/security_engine.py (analyze_span). -/

structure Alert where
  rule : String
  severity : String
  score : ℚ
  description : String
  evidence : String
deriving DecidableEq, Repr

/-- anom.split(":")[0]: the part before the first colon. -/
def beforeColon (s : String) : String :=
  String.mk (s.data.takeWhile (fun c => c != ':'))

/-- str(span.get("duration_ms", "N/A")) used as anomaly evidence. -/
def durEvidence (span : WSpan) : String :=
  match span.duration_ms with
  | some v => pyStr v
  | none => "N/A"

/-- The analyzable text: the two LLM content attribute keys, then the
message attribute of each dict event, joined with newlines. -/
def analyzableText (span : WSpan) : String :=
  let fromAttrs :=
    (match dlookup "llm.prompts.0.content" span.attributes with
     | some v => [pyStr v]
     | none => []) ++
    (match dlookup "llm.completions.0.content" span.attributes with
     | some v => [pyStr v]
     | none => [])
  let fromEvents := span.events.filterMap (fun ev =>
    match ev with
    | .withAttrs a =>
      let msg := (dlookup "message" a).getD (.astr "")
      if truthy msg then some (pyStr msg) else none
    | .other _ => none)
  String.intercalate "\n" (fromAttrs ++ fromEvents)

/-- full_text[:200], the truncated injection evidence. -/
def strTake (s : String) (n : Nat) : String := String.mk (s.data.take n)

/-- analyze_span from security_engine.py: the list of alerts produced
for one span, in construction order (injection, then PII, then
anomalies). -/
def analyze_span (span : WSpan) : List Alert :=
  let fullText := analyzableText span
  let textAlerts :=
    if fullText ≠ "" then
      (let injectionScore := check_injection fullText
       if injectionScore > 50 then
         [{ rule := "Prompt Injection"
            severity := if injectionScore > 80 then "HIGH" else "MEDIUM"
            score := injectionScore
            description := "Potential prompt injection detected in LLM input/output"
            evidence := strTake fullText 200 }]
       else []) ++
      (let piiTypes := check_pii fullText
       if piiTypes ≠ [] then
         [{ rule := "PII Leak"
            severity :=
              if "AWS_KEY" ∈ piiTypes ∨ "SSN" ∈ piiTypes then "CRITICAL" else "HIGH"
            score := 100
            description := "Sensitive PII detected: " ++ String.intercalate ", " piiTypes
            evidence := "REDACTED" }]
       else [])
    else []
  let anomalyAlerts := (check_anomaly span).map (fun anom =>
    { rule := beforeColon anom
      severity := "LOW"
      score := 30
      description := anom
      evidence := durEvidence span })
  textAlerts ++ anomalyAlerts

/-- The number of injection patterns with a match in the text. -/
def countInj (text : String) : Nat :=
  COMPILED_PATTERNS.countP (fun p => reSearch p text)

/-! ### PII sanitizer
Embedding of packages/sdk-python/src/agentstack/sanitizer.py.  The
eight compiled patterns are transcribed in list order; each is applied
by re.sub with its redaction token. -/

def sepDashSpaceC (c : Char) : Bool := c = '-' || isSpaceC c

/-- \b\d{3}[-\s]\d{2}[-\s]\d{4}\b -/
def sanSsnRE : RE :=
  .seq .bnd
    (.seq (reN (.cls digitC) 3)
      (.seq (.cls sepDashSpaceC)
        (.seq (reN (.cls digitC) 2)
          (.seq (.cls sepDashSpaceC) (.seq (reN (.cls digitC) 4) .bnd)))))

/-- \b\d{4}[-\s]?\d{4}[-\s]?\d{4}[-\s]?\d{4}\b -/
def sanCcRE : RE :=
  .seq .bnd
    (.seq (reN (.cls digitC) 4)
      (.seq (.opt (.cls sepDashSpaceC))
        (.seq (reN (.cls digitC) 4)
          (.seq (.opt (.cls sepDashSpaceC))
            (.seq (reN (.cls digitC) 4)
              (.seq (.opt (.cls sepDashSpaceC)) (.seq (reN (.cls digitC) 4) .bnd)))))))

def openaiKeyC (c : Char) : Bool := c.isAlphanum || c = '_' || c = '-'

/-- \bsk-[A-Za-z0-9_-]{20,}\b -/
def sanOpenaiRE : RE :=
  .seq .bnd (.seq (reStr "sk-") (.seq (.rep (.cls openaiKeyC) 20) .bnd))

/-- \b(?:AKIA|AIDA|AROA|ABIA|ACCA)[A-Z0-9]{16}\b -/
def sanAwsIdRE : RE :=
  .seq .bnd
    (.seq (.alt (reStr "AKIA")
        (.alt (reStr "AIDA") (.alt (reStr "AROA") (.alt (reStr "ABIA") (reStr "ACCA")))))
      (.seq (reN (.cls upperDigitC) 16) .bnd))

def underDashC (c : Char) : Bool := c = '_' || c = '-'

def quoteC (c : Char) : Bool := c = '\'' || c = '"'

def b64C (c : Char) : Bool := c.isAlphanum || c = '/' || c = '+' || c = '='

/-- (?:aws[_-]?secret[_-]?access[_-]?key|secret[_-]?key|aws[_-]?secret)
[\s]*[=:][\s]*[quote]?([A-Za-z0-9/+=]{40})[quote]?  with IGNORECASE -/
def sanAwsSecretRE : RE :=
  .seq
    (.alt
      (.seq (reStrCI "aws")
        (.seq (.opt (.cls underDashC))
          (.seq (reStrCI "secret")
            (.seq (.opt (.cls underDashC))
              (.seq (reStrCI "access")
                (.seq (.opt (.cls underDashC)) (reStrCI "key")))))))
      (.alt
        (.seq (reStrCI "secret") (.seq (.opt (.cls underDashC)) (reStrCI "key")))
        (.seq (reStrCI "aws") (.seq (.opt (.cls underDashC)) (reStrCI "secret")))))
    (.seq (.rep (.cls isSpaceC) 0)
      (.seq (.cls (fun c => c = '=' || c = ':'))
        (.seq (.rep (.cls isSpaceC) 0)
          (.seq (.opt (.cls quoteC))
            (.seq (reN (.cls b64C) 40) (.opt (.cls quoteC)))))))

/-- \b[A-Za-z0-9._%+-]+@[A-Za-z0-9.-]+\.[A-Za-z]{2,}\b -/
def sanEmailRE : RE :=
  .seq .bnd
    (.seq (.rep (.cls emailLocalC) 1)
      (.seq (reStr "@")
        (.seq (.rep (.cls emailDomC) 1)
          (.seq (reStr ".") (.seq (.rep (.cls Char.isAlpha) 2) .bnd)))))

def phoneSepC (c : Char) : Bool := c = '-' || c = '.' || isSpaceC c

/-- (?:\+?\d{1,3}[-.\s]?)?(?:\(\d{3}\)|\d{3})[-.\s]?\d{3}[-.\s]?\d{4}\b -/
def sanPhoneRE : RE :=
  .seq
    (.opt (.seq (.opt (reStr "+"))
      (.seq (.seq (.cls digitC) (.opt (.seq (.cls digitC) (.opt (.cls digitC)))))
        (.opt (.cls phoneSepC)))))
    (.seq (.alt (.seq (reStr "(") (.seq (reN (.cls digitC) 3) (reStr ")")))
        (reN (.cls digitC) 3))
      (.seq (.opt (.cls phoneSepC))
        (.seq (reN (.cls digitC) 3)
          (.seq (.opt (.cls phoneSepC)) (.seq (reN (.cls digitC) 4) .bnd)))))

def apiKeyC (c : Char) : Bool :=
  c.isAlphanum || c = '_' || c = '-' || c = '.' || c = '/' || c = '+' || c = '='

/-- (?:api[_-]?key|api[_-]?secret|access[_-]?token|auth[_-]?token|bearer)
[\s]*[=:]\s*[quote]?([A-Za-z0-9_\-./+=]{16,})[quote]?  with IGNORECASE -/
def sanApiKeyRE : RE :=
  .seq
    (.alt (.seq (reStrCI "api") (.seq (.opt (.cls underDashC)) (reStrCI "key")))
      (.alt (.seq (reStrCI "api") (.seq (.opt (.cls underDashC)) (reStrCI "secret")))
        (.alt (.seq (reStrCI "access") (.seq (.opt (.cls underDashC)) (reStrCI "token")))
          (.alt (.seq (reStrCI "auth") (.seq (.opt (.cls underDashC)) (reStrCI "token")))
            (reStrCI "bearer")))))
    (.seq (.rep (.cls isSpaceC) 0)
      (.seq (.cls (fun c => c = '=' || c = ':'))
        (.seq (.rep (.cls isSpaceC) 0)
          (.seq (.opt (.cls quoteC))
            (.seq (.rep (.cls apiKeyC) 16) (.opt (.cls quoteC)))))))

/-- The _PATTERNS list of sanitizer.py, in order, with its redaction
tokens. -/
def SANITIZER_PATTERNS : List (RE × String) :=
  [(sanSsnRE, "[REDACTED_SSN]"),
   (sanCcRE, "[REDACTED_CC]"),
   (sanOpenaiRE, "[REDACTED_OPENAI_KEY]"),
   (sanAwsIdRE, "[REDACTED_AWS_KEY]"),
   (sanAwsSecretRE, "[REDACTED_AWS_KEY]"),
   (sanEmailRE, "[REDACTED_EMAIL]"),
   (sanPhoneRE, "[REDACTED_PHONE]"),
   (sanApiKeyRE, "[REDACTED_API_KEY]")]

/-- _scrub_string: apply every pattern in order to the running result. -/
def scrubString (value : String) : String :=
  SANITIZER_PATTERNS.foldl (fun result p => reSub p.1 p.2 result) value

/-- The loop body of scrub_pii for one key-value pair: non-empty
string values are scrubbed, all other values kept as they are. -/
def scrubEntry (kv : String × AVal) : String × AVal :=
  match kv.2 with
  | .astr s => if s ≠ "" then (kv.1, .astr (scrubString s)) else kv
  | _ => kv

/-- scrub_pii: a new dict in which every non-empty string value is
scrubbed and every other value kept; the input dict is never mutated
(the model is pure, so only the construction of a fresh dict is
visible).  The empty dict short-circuits to a fresh empty dict. -/
def scrub_pii (attributes : List (String × AVal)) : List (String × AVal) :=
  if attributes = [] then []
  else attributes.map scrubEntry

/-! ### SDK span
Embedding of packages/sdk-python/src/agentstack/tracer.py (class Span).
Wall-clock and monotonic readings enter as explicit parameters; the
dispatch of the ended span to the export processor is an external
effect outside the record. -/

inductive SpanStatus where
  | OK
  | ERROR
deriving DecidableEq, Repr

structure SpanEvent where
  name : String
  timestamp : Nat
  attributes : List (String × String)
deriving DecidableEq, Repr

structure Span where
  trace_id : String
  span_id : String
  parent_span_id : Option String
  name : String
  start_time_ns : Nat
  end_time_ns : Nat
  start_mono_ns : Nat
  end_mono_ns : Nat
  attributes : List (String × AVal)
  events : List SpanEvent
  status : SpanStatus
  service_name : String
  ended : Bool
deriving DecidableEq, Repr

namespace Span

/-- Span.set_attribute: a warning and no change on an ended span;
otherwise store str(value) under the key.  The stringified value
arrives as a String. -/
def set_attribute (s : Span) (key : String) (value : String) : Span :=
  if s.ended then s
  else { s with attributes := dictSet s.attributes key (.astr value) }

/-- Span.set_status: sets the status and, for a non-empty message, the
error.message attribute.  The source has no ended guard here. -/
def set_status (s : Span) (status : SpanStatus) (message : Option String) : Span :=
  let s1 := { s with status := status }
  match message with
  | some msg =>
    if msg ≠ "" then
      { s1 with attributes := dictSet s1.attributes "error.message" (.astr msg) }
    else s1
  | none => s1

/-- Span.add_event: a warning and no change on an ended span; otherwise
append the event with stringified attributes and the wall clock now. -/
def add_event (s : Span) (name : String) (attrs : List (String × String))
    (now : Nat) : Span :=
  if s.ended then s
  else { s with events := s.events ++ [⟨name, now, attrs⟩] }

/-- Span.end (end is a Lean keyword): idempotent; records the end
timestamps, scrubs the attributes, and marks the span ended. -/
def endSpan (s : Span) (wallNow monoNow : Nat) : Span :=
  if s.ended then s
  else
    { s with
      ended := true
      end_time_ns := wallNow
      end_mono_ns := monoNow
      attributes := scrub_pii s.attributes }

end Span

/-- A live span with one benign attribute, then ended. -/
def c6Span : Span :=
  { trace_id := "t1"
    span_id := "s1"
    parent_span_id := none
    name := "op"
    start_time_ns := 1000
    end_time_ns := 0
    start_mono_ns := 10
    end_mono_ns := 0
    attributes := [("k", .astr "v")]
    events := []
    status := .OK
    service_name := "default"
    ended := false }

def c6Ended : Span := c6Span.endSpan 2000 20

/-! ### Cost worker
Embedding of packages/workers/src/workers/cost_calculator.py.  Prices
and clock readings are exact rationals (the Python float literals of
the catalog are exactly representable as decimals). -/

/-- The static PRICING catalog in insertion order: (key, input price,
output price) in USD per 1k tokens. -/
def PRICING : List (String × ℚ × ℚ) :=
  [("gpt-4", 0.03, 0.06),
   ("gpt-4-turbo", 0.01, 0.03),
   ("gpt-4o", 0.005, 0.015),
   ("gpt-3.5-turbo", 0.0005, 0.0015),
   ("claude-3-opus", 0.015, 0.075),
   ("claude-3-sonnet", 0.003, 0.015),
   ("claude-3-haiku", 0.00025, 0.00125)]

def headMatch : List Char → List Char → Bool
  | [], _ => true
  | _ :: _, [] => false
  | n :: ns, h :: hs => n = h && headMatch ns hs

def containsSubL (needle : List Char) : List Char → Bool
  | [] => headMatch needle []
  | h :: hs => headMatch needle (h :: hs) || containsSubL needle hs

/-- str.lower() over the ASCII payloads the worker sees. -/
def strLower (s : String) : String := String.mk (s.data.map Char.toLower)

/-- Python needle-in-hay containment on strings. -/
def containsSub (needle hay : String) : Bool :=
  containsSubL needle.data hay.data

structure CostRow where
  project_id : String
  model : String
  span_kind : String
  timestamp : Option AVal
  prompt_tokens : Int
  completion_tokens : Int
  total_tokens : Int
  cost_usd : ℚ
deriving DecidableEq, Repr

/-- What calculate_cost does with a span: raise (err), return without
appending (skip), or append one cost row. -/
inductive CalcOutcome where
  | err
  | skip
  | row (r : CostRow)
deriving DecidableEq, Repr

/-- calculate_cost from cost_calculator.py.  An integer model value
would raise AttributeError at .lower(), and an unparsable string token
count raises ValueError at int(); both surface as err and propagate out
of process_message. -/
def calculate_cost (span : WSpan) : CalcOutcome :=
  let attrs := span.attributes
  match (dlookup "llm.model" attrs).getD ((dlookup "model" attrs).getD (.astr "")) with
  | .aint _ => .err
  | .astr ms =>
    let model := strLower ms
    if model = "" then .skip
    else
      match pyInt ((dlookup "llm.usage.prompt_tokens" attrs).getD (.aint 0)) with
      | none => .err
      | some prompt_tokens =>
        match pyInt ((dlookup "llm.usage.completion_tokens" attrs).getD (.aint 0)) with
        | none => .err
        | some completion_tokens =>
          match pyInt ((dlookup "llm.usage.total_tokens" attrs).getD
              (.aint (prompt_tokens + completion_tokens))) with
          | none => .err
          | some total_tokens =>
            if total_tokens = 0 then .skip
            else
              match PRICING.find? (fun p => containsSub p.1 model) with
              | none => .skip
              | some p =>
                .row { project_id := span.project_id.getD "unknown"
                       model := model
                       span_kind := "llm"
                       timestamp := span.start_time
                       prompt_tokens := prompt_tokens
                       completion_tokens := completion_tokens
                       total_tokens := total_tokens
                       cost_usd := (prompt_tokens : ℚ) / 1000 * p.2.1 +
                         (completion_tokens : ℚ) / 1000 * p.2.2 }

/-- The cost worker state process_message reads: the accumulated
buffer, the last_flush clock reading, and batch_size.  The constructor
also accepts flush_interval (default 5.0) but never stores or reads
it; the flush check below hardcodes 1.0. -/
structure CostWorkerState where
  buffer : List CostRow
  last_flush : ℚ
  batch_size : Nat
deriving DecidableEq

/-- CostCalculator.process_message: skip entries without a data field;
a raising calculate_cost propagates before the flush check; otherwise
append any produced row and flush when the buffer has reached
batch_size or at least 1.0 second passed since last_flush.  Returns
the new state and whether flush_buffer was invoked. -/
def process_message (st : CostWorkerState) (hasData : Bool) (span : WSpan)
    (now : ℚ) : CostWorkerState × Bool :=
  if ¬ hasData then (st, false)
  else
    match calculate_cost span with
    | .err => (st, false)
    | .skip =>
      (st, decide (st.buffer.length ≥ st.batch_size) || decide (now - st.last_flush ≥ 1))
    | .row r =>
      let st' := { st with buffer := st.buffer ++ [r] }
      (st', decide (st'.buffer.length ≥ st.batch_size) || decide (now - st.last_flush ≥ 1))

/-- The span of the literal cost scenario: gpt-4-0613 with 1000 prompt
and 500 completion tokens. -/
def c8Span : WSpan :=
  { attributes := [("llm.model", .astr "gpt-4-0613"),
      ("llm.usage.prompt_tokens", .aint 1000),
      ("llm.usage.completion_tokens", .aint 500)]
    events := []
    duration_ms := none
    project_id := some "P"
    trace_id := none
    span_id := none
    start_time := none }

theorem addAll_characterization (N : Nat) (xs : List α) :
    (RingBuffer.addAll (RingBuffer.init α N) xs).capacity = N ∧
    (RingBuffer.addAll (RingBuffer.init α N) xs).buffer = xs.drop (xs.length - N) ∧
    (RingBuffer.addAll (RingBuffer.init α N) xs).dropped = xs.length - min xs.length N := by
  induction xs using List.reverseRecOn with
  | nil => simp [RingBuffer.addAll, RingBuffer.init]
  | append_singleton l x ih =>
    obtain ⟨hc, hb, hd⟩ := ih
    have hstep : RingBuffer.addAll (RingBuffer.init α N) (l ++ [x]) = RingBuffer.add (RingBuffer.addAll (RingBuffer.init α N) l) x := by
      simp [RingBuffer.addAll, List.foldl_append]
    refine ⟨by simp [hstep, RingBuffer.add, hc], ?_, ?_⟩
    · rw [hstep]
      simp only [RingBuffer.add, hb, hc, List.length_append, List.length_drop,
        List.length_cons, List.length_nil]
      by_cases hN : N ≤ l.length
      · have hdropapp : l.drop (l.length - N) ++ [x] = (l ++ [x]).drop (l.length - N) :=
          (List.drop_append_of_le_length (by omega)).symm
        have hidx : l.length - (l.length - N) + 1 - N = 1 := by omega
        rw [hdropapp, hidx, List.drop_drop]
        congr 1
        omega
      · have h0 : l.length - N = 0 := by omega
        rw [h0]
        simp only [List.drop_zero]
        congr 1
    · rw [hstep]
      simp only [RingBuffer.add, hb, hc, hd, List.length_append, List.length_drop,
        List.length_cons, List.length_nil, ge_iff_le]
      by_cases hN : N ≤ l.length - (l.length - N)
      · rw [if_pos hN]
        omega
      · rw [if_neg hN]
        omega

/-- C1: for every ring buffer of capacity N ≥ 1 and every sequence of
M > N add calls, afterwards size = N, dropped = M − N, and a single
drain returns exactly the last N items added in insertion order,
leaving the buffer empty. -/
theorem C1_ring_buffer_drop_oldest {α : Type} (N : Nat) (xs : List α)
    (hN : 1 ≤ N) (hM : N < xs.length) :
    (RingBuffer.addAll (RingBuffer.init α N) xs).size = N ∧
    (RingBuffer.addAll (RingBuffer.init α N) xs).dropped = xs.length - N ∧
    (RingBuffer.addAll (RingBuffer.init α N) xs).drain.1 = xs.drop (xs.length - N) ∧
    (RingBuffer.addAll (RingBuffer.init α N) xs).drain.2.size = 0 := by
  obtain ⟨hc, hb, hd⟩ := addAll_characterization N xs
  refine ⟨?_, ?_, ?_, ?_⟩
  · show (RingBuffer.addAll (RingBuffer.init α N) xs).buffer.length = N
    rw [hb, List.length_drop]
    omega
  · rw [hd]
    omega
  · show (RingBuffer.addAll (RingBuffer.init α N) xs).buffer = _
    exact hb
  · rfl

/-- Witness for C1 at capacity 2 and three adds. -/
theorem C1_witness :
    (1 ≤ 2 ∧ 2 < [10, 20, 30].length) ∧
    ((RingBuffer.addAll (RingBuffer.init Nat 2) [10, 20, 30]).size = 2 ∧
     (RingBuffer.addAll (RingBuffer.init Nat 2) [10, 20, 30]).dropped =
       [10, 20, 30].length - 2 ∧
     (RingBuffer.addAll (RingBuffer.init Nat 2) [10, 20, 30]).drain.1 =
       [10, 20, 30].drop ([10, 20, 30].length - 2) ∧
     (RingBuffer.addAll (RingBuffer.init Nat 2) [10, 20, 30]).drain.2.size = 0) :=
  ⟨⟨by decide, by decide⟩,
   C1_ring_buffer_drop_oldest 2 [10, 20, 30] (by decide) (by decide)⟩

/-- C2: every request whose body exceeds 5 MiB is answered 413, the
auth path is never invoked, and nothing is appended to the log. -/
theorem C2_oversize_rejected_before_auth (req : IngestRequest)
    (h : req.bodyLen > 5 * 1024 * 1024) :
    (ingest_traces req).status = 413 ∧
    (ingest_traces req).authInvoked = false ∧
    (ingest_traces req).queued = [] := by
  unfold ingest_traces MAX_PAYLOAD_BYTES
  rw [if_pos h]
  exact ⟨rfl, rfl, rfl⟩

/-- Witness for C2: a 5 MiB + 1 byte body with a valid key and a
decodable span batch. -/
theorem C2_witness :
    (IngestRequest.mk (5 * 1024 * 1024 + 1) (some "proj-1") (some [[("span_id", .jstr "s1")]])).bodyLen
      > 5 * 1024 * 1024 ∧
    ((ingest_traces (IngestRequest.mk (5 * 1024 * 1024 + 1) (some "proj-1")
        (some [[("span_id", .jstr "s1")]]))).status = 413 ∧
     (ingest_traces (IngestRequest.mk (5 * 1024 * 1024 + 1) (some "proj-1")
        (some [[("span_id", .jstr "s1")]]))).authInvoked = false ∧
     (ingest_traces (IngestRequest.mk (5 * 1024 * 1024 + 1) (some "proj-1")
        (some [[("span_id", .jstr "s1")]]))).queued = []) :=
  ⟨by decide,
   C2_oversize_rejected_before_auth _ (by decide)⟩

theorem dlookup_mem {β : Type} {k : String} {v : β} :
    ∀ {d : List (String × β)}, dlookup k d = some v → (k, v) ∈ d := by
  intro d
  induction d with
  | nil => intro h; simp [dlookup] at h
  | cons e rest ih =>
    intro h
    by_cases he : e.1 = k
    · simp only [dlookup, he, if_pos] at h
      have hv : e.2 = v := Option.some.inj h
      have hek : (k, v) = e := by cases e; simp_all
      rw [hek]
      exact List.mem_cons_self _ _
    · simp only [dlookup, he, if_neg, if_false] at h
      exact List.mem_cons_of_mem _ (ih h)

theorem verify_preserves (fastHash : String → String) (slowVerify : String → String → Bool)
    (mockRedis : Bool) (db : List (String × String))
    (cache : List (String × String)) (key : String)
    (hconf : cacheConfirmed fastHash slowVerify db cache)
    (hlen : cache.length ≤ CACHE_MAX_SIZE) :
    cacheConfirmed fastHash slowVerify db
        (verify_api_key fastHash slowVerify mockRedis db cache key).1 ∧
    (verify_api_key fastHash slowVerify mockRedis db cache key).1.length ≤ CACHE_MAX_SIZE := by
  unfold verify_api_key
  by_cases hfmt : ¬ key.startsWith "ak_"
  · rw [if_pos hfmt]; exact ⟨hconf, hlen⟩
  · rw [if_neg hfmt]
    by_cases hmock : mockRedis
    · rw [if_pos hmock]; exact ⟨hconf, hlen⟩
    · rw [if_neg hmock]
      cases hhit : dlookup (fastHash key) cache with
      | some pid => exact ⟨hconf, hlen⟩
      | none =>
        cases hscan : scanProjects slowVerify db key with
        | none => exact ⟨hconf, hlen⟩
        | some pid =>
          simp only
          by_cases hfull : cache.length < CACHE_MAX_SIZE
          · rw [if_pos hfull]
            constructor
            · intro e he
              rcases List.mem_append.mp he with hin | hnew
              · exact hconf e hin
              · rcases List.mem_singleton.mp hnew with rfl
                exact ⟨key, rfl, hscan⟩
            · rw [List.length_append]
              simpa using hfull
          · rw [if_neg hfull]
            exact ⟨hconf, hlen⟩

theorem runVerifies_confirmed (fastHash : String → String)
    (slowVerify : String → String → Bool) (mockRedis : Bool)
    (db : List (String × String)) (keys : List String) :
    cacheConfirmed fastHash slowVerify db
        (runVerifies fastHash slowVerify mockRedis db keys) ∧
    (runVerifies fastHash slowVerify mockRedis db keys).length ≤ CACHE_MAX_SIZE := by
  unfold runVerifies
  have hgen : ∀ (ks : List String) (c : List (String × String)),
      cacheConfirmed fastHash slowVerify db c → c.length ≤ CACHE_MAX_SIZE →
      cacheConfirmed fastHash slowVerify db
          (ks.foldl (fun c k => (verify_api_key fastHash slowVerify mockRedis db c k).1) c) ∧
      (ks.foldl (fun c k => (verify_api_key fastHash slowVerify mockRedis db c k).1) c).length
          ≤ CACHE_MAX_SIZE := by
    intro ks
    induction ks with
    | nil => intro c hc hl; exact ⟨hc, hl⟩
    | cons k rest ih =>
      intro c hc hl
      have hstep := verify_preserves fastHash slowVerify mockRedis db c k hc hl
      exact ih _ hstep.1 hstep.2
  refine hgen keys [] ?_ ?_
  · intro e he; cases he
  · simp [CACHE_MAX_SIZE]

/-- C3: in every cache state reachable through verify_api_key calls,
every cached fast-hash-to-project mapping was confirmed by a successful
slow-hash verify (the full scan of the projects table at some key with
that fast hash returns exactly the cached project id); the cache never
exceeds 1000 entries; once it holds 1000 entries a further call never
inserts; and, as long as the fast hash is collision-free, a cache hit
returns exactly the project id the full slow-hash scan would return. -/
theorem C3_auth_cache_sound (fastHash : String → String)
    (slowVerify : String → String → Bool) (mockRedis : Bool)
    (db : List (String × String)) (keys : List String) :
    (cacheConfirmed fastHash slowVerify db
        (runVerifies fastHash slowVerify mockRedis db keys)) ∧
    (runVerifies fastHash slowVerify mockRedis db keys).length ≤ 1000 ∧
    (∀ k, (runVerifies fastHash slowVerify mockRedis db keys).length = 1000 →
      (verify_api_key fastHash slowVerify mockRedis db
          (runVerifies fastHash slowVerify mockRedis db keys) k).1 =
        runVerifies fastHash slowVerify mockRedis db keys) ∧
    (Function.Injective fastHash →
      ∀ k pid, dlookup (fastHash k) (runVerifies fastHash slowVerify mockRedis db keys)
          = some pid →
        scanProjects slowVerify db k = some pid) := by
  obtain ⟨hconf, hlen⟩ :=
    runVerifies_confirmed fastHash slowVerify mockRedis db keys
  refine ⟨hconf, hlen, ?_, ?_⟩
  · intro k hfull
    unfold verify_api_key
    by_cases hfmt : ¬ k.startsWith "ak_"
    · rw [if_pos hfmt]
    · rw [if_neg hfmt]
      by_cases hmock : mockRedis
      · rw [if_pos hmock]
      · rw [if_neg hmock]
        cases hhit : dlookup (fastHash k) (runVerifies fastHash slowVerify mockRedis db keys) with
        | some pid => rfl
        | none =>
          cases hscan : scanProjects slowVerify db k with
          | none => rfl
          | some pid =>
            simp only
            rw [if_neg (by rw [hfull]; simp [CACHE_MAX_SIZE])]
  · intro hinj k pid hhit
    obtain ⟨key, hkey, hscan⟩ := hconf _ (dlookup_mem hhit)
    have : key = k := hinj hkey
    rwa [this] at hscan

/-- Witness for C3 instantiated with an identity fast hash, equality as
the slow verifier, a one-project table, and one verifying call. -/
theorem C3_witness :
    (cacheConfirmed id (fun k h => k == h) [("p1", "ak_k1")]
        (runVerifies id (fun k h => k == h) false [("p1", "ak_k1")] ["ak_k1"])) ∧
    (runVerifies id (fun k h => k == h) false [("p1", "ak_k1")] ["ak_k1"]).length ≤ 1000 ∧
    (∀ k, (runVerifies id (fun k h => k == h) false [("p1", "ak_k1")] ["ak_k1"]).length = 1000 →
      (verify_api_key id (fun k h => k == h) false [("p1", "ak_k1")]
          (runVerifies id (fun k h => k == h) false [("p1", "ak_k1")] ["ak_k1"]) k).1 =
        runVerifies id (fun k h => k == h) false [("p1", "ak_k1")] ["ak_k1"]) ∧
    (Function.Injective (id : String → String) →
      ∀ k pid, dlookup (id k)
          (runVerifies id (fun k h => k == h) false [("p1", "ak_k1")] ["ak_k1"]) = some pid →
        scanProjects (fun k h => k == h) [("p1", "ak_k1")] k = some pid) :=
  C3_auth_cache_sound id (fun k h => k == h) false [("p1", "ak_k1")] ["ak_k1"]

theorem classify_stopFail {a : Attempt} {c : Nat}
    (h : classifyAttempt a = .stopFail c) :
    a = .httpErr c ∧ c ∉ RETRYABLE_STATUS_CODES := by
  cases a with
  | resp s =>
    by_cases h2 : 200 ≤ s ∧ s < 300 <;> simp [classifyAttempt, h2] at h
  | httpErr d =>
    by_cases hd : d ∈ RETRYABLE_STATUS_CODES
    · simp [classifyAttempt, hd] at h
    · simp only [classifyAttempt, hd, if_neg, if_false, StepKind.stopFail.injEq] at h
      subst h
      exact ⟨rfl, hd⟩
  | connErr => simp [classifyAttempt] at h
  | unexpected => simp [classifyAttempt] at h

theorem classify_retry_retryable {a : Attempt} {st : Option Nat}
    (hreal : realisticAttempt a) (h : classifyAttempt a = .retry st) :
    retryableAttempt a := by
  cases a with
  | resp s =>
    have : 200 ≤ s ∧ s < 300 := hreal
    simp [classifyAttempt, this] at h
  | httpErr d =>
    by_cases hd : d ∈ RETRYABLE_STATUS_CODES
    · exact hd
    · simp [classifyAttempt, hd] at h
  | connErr => trivial
  | unexpected => exact hreal.elim

theorem httpErr_not_retry {c : Nat} (hc : c ∉ RETRYABLE_STATUS_CODES) :
    classifyAttempt (.httpErr c) = .stopFail c := by
  simp [classifyAttempt, hc]

theorem range0_pow_take {k : Nat} (hk : k ≤ 2) :
    (List.range' 0 k).map (fun i => 2 ^ i) = List.take k [1, 2, 4] := by
  interval_cases k <;> decide

theorem classify_httpErr_ne_stopSuccess (c s : Nat) :
    classifyAttempt (.httpErr c) ≠ .stopSuccess s := by
  by_cases hc : c ∈ RETRYABLE_STATUS_CODES <;> simp [classifyAttempt, hc]

theorem sendGo_spec (outcomes : List Attempt) :
    ∀ (attempt : Nat) (st : Option Nat), attempt ≤ 3 → 3 ≤ attempt + outcomes.length →
    (∀ a ∈ outcomes, realisticAttempt a) →
    (min (attempt + 1) 3 ≤ (sendGo 3 attempt st outcomes).attemptsMade ∧
      (sendGo 3 attempt st outcomes).attemptsMade ≤ 3) ∧
    (sendGo 3 attempt st outcomes).sleeps =
      (List.range' attempt ((sendGo 3 attempt st outcomes).attemptsMade - 1 - attempt)).map
        (fun i => 2 ^ i) ∧
    (∀ i a, outcomes[i]? = some a →
      attempt + i + 1 < (sendGo 3 attempt st outcomes).attemptsMade → retryableAttempt a) ∧
    (∀ i c, outcomes[i]? = some (.httpErr c) → c ∉ RETRYABLE_STATUS_CODES →
      attempt + i < (sendGo 3 attempt st outcomes).attemptsMade →
      (sendGo 3 attempt st outcomes).attemptsMade = attempt + i + 1 ∧
      (sendGo 3 attempt st outcomes).result = ⟨false, some c, attempt + i⟩) := by
  induction outcomes with
  | nil =>
    intro attempt st hle hlen hreal
    simp only [List.length_nil] at hlen
    have h3 : attempt = 3 := by omega
    subst h3
    refine ⟨⟨by simp [sendGo], by simp [sendGo]⟩, by simp [sendGo], ?_, ?_⟩
    · intro i x hx; simp at hx
    · intro i c hx; simp at hx
  | cons a rest ih =>
    intro attempt st hle hlen hreal
    have hrest : ∀ x ∈ rest, realisticAttempt x :=
      fun x hx => hreal x (List.mem_cons_of_mem _ hx)
    have hheadreal : realisticAttempt a := hreal a (List.mem_cons_self _ _)
    by_cases hstop : attempt ≥ 3
    · have h3 : attempt = 3 := by omega
      subst h3
      have hstep : sendGo 3 3 st (a :: rest) = ⟨⟨false, st, 3⟩, [], 3⟩ := by
        rw [sendGo, if_pos (by omega : (3 : Nat) ≥ 3)]
      rw [hstep]
      refine ⟨⟨by exact (by omega : min (3 + 1) 3 ≤ 3), by exact (by omega : (3 : Nat) ≤ 3)⟩,
        by simp, ?_, ?_⟩
      · intro i x _ hcond
        have hcond' : 3 + i + 1 < 3 := hcond
        omega
      · intro i c _ _ hcond
        have hcond' : 3 + i < 3 := hcond
        omega
    · push_neg at hstop
      cases hcl : classifyAttempt a with
      | stopSuccess s =>
        have hstep : sendGo 3 attempt st (a :: rest) =
            ⟨⟨true, some s, attempt⟩, [], attempt + 1⟩ := by
          rw [sendGo, if_neg (by omega), hcl]
        rw [hstep]
        refine ⟨⟨by exact (by omega : min (attempt + 1) 3 ≤ attempt + 1),
          by exact (by omega : attempt + 1 ≤ 3)⟩, by simp, ?_, ?_⟩
        · intro i x _ hcond
          have hcond' : attempt + i + 1 < attempt + 1 := hcond
          omega
        · intro i c hx _ hcond
          have hcond' : attempt + i < attempt + 1 := hcond
          have hi : i = 0 := by omega
          subst hi
          simp only [List.getElem?_cons_zero, Option.some.injEq] at hx
          subst hx
          exact absurd hcl (classify_httpErr_ne_stopSuccess c s)
      | stopFail c =>
        obtain ⟨ha, hcnot⟩ := classify_stopFail hcl
        have hstep : sendGo 3 attempt st (a :: rest) =
            ⟨⟨false, some c, attempt⟩, [], attempt + 1⟩ := by
          rw [sendGo, if_neg (by omega), hcl]
        rw [hstep]
        refine ⟨⟨by exact (by omega : min (attempt + 1) 3 ≤ attempt + 1),
          by exact (by omega : attempt + 1 ≤ 3)⟩, by simp, ?_, ?_⟩
        · intro i x _ hcond
          have hcond' : attempt + i + 1 < attempt + 1 := hcond
          omega
        · intro i c' hx hc'not hcond
          have hcond' : attempt + i < attempt + 1 := hcond
          have hi : i = 0 := by omega
          subst hi
          subst ha
          simp only [List.getElem?_cons_zero, Option.some.injEq,
            Attempt.httpErr.injEq] at hx
          subst hx
          exact ⟨rfl, rfl⟩
      | retry st' =>
        have hretry : retryableAttempt a := classify_retry_retryable hheadreal hcl
        by_cases hlt : attempt + 1 < 3
        · obtain ⟨⟨hA1, hA2⟩, hsl, hc3, hc4⟩ :=
            ih (attempt + 1) st' (by omega)
              (by simp only [List.length_cons] at hlen; omega) hrest
          have hA1' : attempt + 2 ≤ (sendGo 3 (attempt + 1) st' rest).attemptsMade := by
            omega
          have hstep : sendGo 3 attempt st (a :: rest) =
              if attempt + 1 < 3 then
                ⟨(sendGo 3 (attempt + 1) st' rest).result,
                  2 ^ attempt :: (sendGo 3 (attempt + 1) st' rest).sleeps,
                  (sendGo 3 (attempt + 1) st' rest).attemptsMade⟩
              else ⟨⟨false, st', 3⟩, [], attempt + 1⟩ := by
            rw [sendGo, if_neg (by omega), hcl]
          rw [hstep, if_pos hlt]
          refine ⟨⟨?_, ?_⟩, ?_, ?_, ?_⟩
          · show min (attempt + 1) 3 ≤ (sendGo 3 (attempt + 1) st' rest).attemptsMade
            omega
          · exact hA2
          · show 2 ^ attempt :: (sendGo 3 (attempt + 1) st' rest).sleeps = _
            have hn : (sendGo 3 (attempt + 1) st' rest).attemptsMade - 1 - attempt =
                ((sendGo 3 (attempt + 1) st' rest).attemptsMade - 1 - (attempt + 1)) + 1 := by
              omega
            rw [hn, List.range'_succ, List.map_cons, hsl]
          · intro i x hx hcond
            have hcond' : attempt + i + 1 <
                (sendGo 3 (attempt + 1) st' rest).attemptsMade := hcond
            cases i with
            | zero =>
              simp only [List.getElem?_cons_zero, Option.some.injEq] at hx
              subst hx
              exact hretry
            | succ j =>
              simp only [List.getElem?_cons_succ] at hx
              exact hc3 j x hx (by omega)
          · intro i c hx hcnot hcond
            have hcond' : attempt + i <
                (sendGo 3 (attempt + 1) st' rest).attemptsMade := hcond
            cases i with
            | zero =>
              simp only [List.getElem?_cons_zero, Option.some.injEq] at hx
              subst hx
              exact absurd hretry hcnot
            | succ j =>
              simp only [List.getElem?_cons_succ] at hx
              obtain ⟨h1, h2⟩ := hc4 j c hx hcnot (by omega)
              constructor
              · show (sendGo 3 (attempt + 1) st' rest).attemptsMade = _
                omega
              · show (sendGo 3 (attempt + 1) st' rest).result = _
                rw [h2]
                congr 1
                omega
        · have hstep : sendGo 3 attempt st (a :: rest) =
              if attempt + 1 < 3 then
                ⟨(sendGo 3 (attempt + 1) st' rest).result,
                  2 ^ attempt :: (sendGo 3 (attempt + 1) st' rest).sleeps,
                  (sendGo 3 (attempt + 1) st' rest).attemptsMade⟩
              else ⟨⟨false, st', 3⟩, [], attempt + 1⟩ := by
            rw [sendGo, if_neg (by omega), hcl]
          rw [hstep, if_neg hlt]
          refine ⟨⟨by exact (by omega : min (attempt + 1) 3 ≤ attempt + 1),
            by exact (by omega : attempt + 1 ≤ 3)⟩, ?_, ?_, ?_⟩
          · show ([] : List Nat) = _
            have h0 : attempt + 1 - 1 - attempt = 0 := by omega
            rw [h0]
            simp
          · intro i x _ hcond
            have hcond' : attempt + i + 1 < attempt + 1 := hcond
            omega
          · intro i c hx hcnot hcond
            have hcond' : attempt + i < attempt + 1 := hcond
            have hi : i = 0 := by omega
            subst hi
            simp only [List.getElem?_cons_zero, Option.some.injEq] at hx
            subst hx
            rw [httpErr_not_retry hcnot] at hcl
            cases hcl

/-- C4: with the default 3 attempts, a non-empty serializable batch
leads to at most 3 attempts; the backoff sleeps between failed attempts
follow the 2 ^ attempt schedule, that is the prefix of 1s, 2s, 4s that
the run reaches; a further attempt is made only after a connection
error or timeout or a status in 429, 500, 502, 503, 504; and a
non-retryable HTTP status ends the call immediately with a failure
result reporting that status and the retries used so far. -/
theorem C4_transport_retry_policy (outcomes : List Attempt)
    (hlen : outcomes.length = 3)
    (hreal : ∀ a ∈ outcomes, realisticAttempt a) :
    (send false true 3 outcomes).attemptsMade ≤ 3 ∧
    (send false true 3 outcomes).sleeps =
      List.take ((send false true 3 outcomes).attemptsMade - 1) [1, 2, 4] ∧
    (∀ i a, outcomes[i]? = some a →
      i + 1 < (send false true 3 outcomes).attemptsMade → retryableAttempt a) ∧
    (∀ i c, outcomes[i]? = some (.httpErr c) → c ∉ RETRYABLE_STATUS_CODES →
      i < (send false true 3 outcomes).attemptsMade →
      (send false true 3 outcomes).attemptsMade = i + 1 ∧
      (send false true 3 outcomes).result = ⟨false, some c, i⟩) := by
  have hsend : send false true 3 outcomes = sendGo 3 0 none outcomes := by
    simp [send]
  obtain ⟨⟨hA1, hA2⟩, hsl, hc3, hc4⟩ :=
    sendGo_spec outcomes 0 none (by omega) (by omega) hreal
  rw [hsend]
  refine ⟨hA2, ?_, ?_, ?_⟩
  · rw [hsl]
    have hk : (sendGo 3 0 none outcomes).attemptsMade - 1 - 0 =
        (sendGo 3 0 none outcomes).attemptsMade - 1 := by omega
    rw [hk]
    exact range0_pow_take (by omega)
  · intro i a hx hcond
    exact hc3 i a hx (by omega)
  · intro i c hx hcnot hcond
    obtain ⟨h1, h2⟩ := hc4 i c hx hcnot (by omega)
    refine ⟨by omega, ?_⟩
    rw [h2]
    congr 1
    omega

/-- Witness for C4: a connection error, then a 400 HTTPError, then an
unreached 202; the call stops after two attempts with one 1-second
sleep, reporting status 400 and one retry used. -/
theorem C4_witness :
    ([Attempt.connErr, Attempt.httpErr 400, Attempt.resp 202].length = 3 ∧
     (∀ a ∈ [Attempt.connErr, Attempt.httpErr 400, Attempt.resp 202], realisticAttempt a)) ∧
    ((send false true 3 [Attempt.connErr, Attempt.httpErr 400, Attempt.resp 202]).attemptsMade
        ≤ 3 ∧
     (send false true 3 [Attempt.connErr, Attempt.httpErr 400, Attempt.resp 202]).sleeps =
       List.take ((send false true 3
         [Attempt.connErr, Attempt.httpErr 400, Attempt.resp 202]).attemptsMade - 1)
         [1, 2, 4] ∧
     (∀ i a, [Attempt.connErr, Attempt.httpErr 400, Attempt.resp 202][i]? = some a →
       i + 1 < (send false true 3
         [Attempt.connErr, Attempt.httpErr 400, Attempt.resp 202]).attemptsMade →
       retryableAttempt a) ∧
     (∀ i c, [Attempt.connErr, Attempt.httpErr 400, Attempt.resp 202][i]? =
         some (.httpErr c) → c ∉ RETRYABLE_STATUS_CODES →
       i < (send false true 3
         [Attempt.connErr, Attempt.httpErr 400, Attempt.resp 202]).attemptsMade →
       (send false true 3
         [Attempt.connErr, Attempt.httpErr 400, Attempt.resp 202]).attemptsMade = i + 1 ∧
       (send false true 3
         [Attempt.connErr, Attempt.httpErr 400, Attempt.resp 202]).result =
           ⟨false, some c, i⟩)) :=
  ⟨⟨rfl, by intro a ha; fin_cases ha <;> simp [realisticAttempt]⟩,
   C4_transport_retry_policy [Attempt.connErr, Attempt.httpErr 400, Attempt.resp 202] rfl
     (by intro a ha; fin_cases ha <;> simp [realisticAttempt])⟩

example : reSearch piiSsnRE "ssn 123-45-6789 x" = true := by decide

example : reSearch piiSsnRE "1234-45-6789" = false := by decide

example : reSearch piiEmailRE "hi a@b.co" = true := by decide

example : reSearch piiCcRE "4111-1111-1111-1111" = true := by decide

example : check_pii "ssn 123-45-6789" = ["SSN"] := by decide

example : COMPILED_PATTERNS.countP (fun p => reSearch p "a jailbreak") = 1 := by decide

example : COMPILED_PATTERNS.countP (fun p => reSearch p "jailbreak dev mode") = 2 := by decide

example : COMPILED_PATTERNS.countP (fun p => reSearch p "Jailbreak DEV MODE system prompt") = 3 := by decide

theorem foldl_score_eq (text : String) :
    ∀ (l : List RE) (a : ℚ),
      l.foldl (fun sc p => if reSearch p text then sc + 40 else sc) a =
        a + 40 * (l.countP (fun p => reSearch p text) : ℚ) := by
  intro l
  induction l with
  | nil => intro a; simp
  | cons p rest ih =>
    intro a
    by_cases hp : reSearch p text
    · simp only [List.foldl_cons, List.countP_cons, hp]
      rw [ih]
      push_cast
      ring
    · simp only [List.foldl_cons, List.countP_cons, hp]
      rw [ih]
      push_cast
      ring

theorem check_injection_eq (text : String) :
    check_injection text = min (40 * (countInj text : ℚ)) 100 := by
  unfold check_injection countInj
  by_cases ht : text = ""
  · subst ht
    rw [if_pos rfl]
    have hc : COMPILED_PATTERNS.countP (fun p => reSearch p "") = 0 := by decide
    rw [hc]
    norm_num
  · rw [if_neg ht, foldl_score_eq, zero_add]

theorem beforeColon_excessive (x : String) :
    beforeColon ("Excessive duration: " ++ x) = "Excessive duration" := rfl

theorem beforeColon_high (x : String) :
    beforeColon ("High token usage: " ++ x) = "High token usage" := rfl

theorem anomaly_rules (span : WSpan) (d : String) (hd : d ∈ check_anomaly span) :
    beforeColon d = "Excessive duration" ∨ beforeColon d = "High token usage" := by
  simp only [check_anomaly] at hd
  rcases List.mem_append.mp hd with h | h
  · split at h
    · rcases List.mem_singleton.mp h with rfl
      left
      rw [String.append_assoc]
      exact beforeColon_excessive _
    · cases h
  · split at h
    · rcases List.mem_singleton.mp h with rfl
      right
      exact beforeColon_high _
    · cases h

theorem anomaly_filter_nil (span : WSpan) (r : String)
    (hr1 : r ≠ "Excessive duration") (hr2 : r ≠ "High token usage") :
    ((check_anomaly span).map (fun anom =>
      ({ rule := beforeColon anom, severity := "LOW", score := 30,
         description := anom, evidence := durEvidence span } : Alert))).filter
      (fun al => al.rule == r) = [] := by
  rw [List.filter_eq_nil_iff]
  intro al hal
  rcases List.mem_map.mp hal with ⟨anom, hanom, rfl⟩
  rcases anomaly_rules span anom hanom with h | h <;>
    simp [h, hr1.symm, hr2.symm]

/-- C7: the injection score is 40 times the number of patterns the text
matches, capped at 100; a Prompt Injection alert is generated exactly
when the score exceeds 50, with severity HIGH above 80 and MEDIUM
otherwise; in particular a text matching exactly one pattern scores 40
and produces no injection alert. -/
theorem C7_injection_rule (span : WSpan) :
    check_injection (analyzableText span) =
      min (40 * (countInj (analyzableText span) : ℚ)) 100 ∧
    ((analyze_span span).filter (fun al => al.rule == "Prompt Injection") =
      (if check_injection (analyzableText span) > 50 then
        [{ rule := "Prompt Injection"
           severity := if check_injection (analyzableText span) > 80 then "HIGH" else "MEDIUM"
           score := check_injection (analyzableText span)
           description := "Potential prompt injection detected in LLM input/output"
           evidence := strTake (analyzableText span) 200 }]
      else [])) ∧
    (countInj (analyzableText span) = 1 →
      (analyze_span span).filter (fun al => al.rule == "Prompt Injection") = []) := by
  have hfilter : (analyze_span span).filter (fun al => al.rule == "Prompt Injection") =
      (if check_injection (analyzableText span) > 50 then
        [{ rule := "Prompt Injection"
           severity := if check_injection (analyzableText span) > 80 then "HIGH" else "MEDIUM"
           score := check_injection (analyzableText span)
           description := "Potential prompt injection detected in LLM input/output"
           evidence := strTake (analyzableText span) 200 }]
      else []) := by
    unfold analyze_span
    rw [List.filter_append, anomaly_filter_nil span _ (by decide) (by decide),
      List.append_nil]
    by_cases hft : analyzableText span = ""
    · rw [if_neg (by simpa using hft)]
      have h0 : check_injection (analyzableText span) = 0 := by
        rw [hft]; rfl
      rw [h0, if_neg (by norm_num), List.filter_nil]
    · rw [if_pos hft, List.filter_append]
      have hpii : (if check_pii (analyzableText span) ≠ [] then
          [{ rule := "PII Leak"
             severity := if "AWS_KEY" ∈ check_pii (analyzableText span) ∨
                 "SSN" ∈ check_pii (analyzableText span) then "CRITICAL" else "HIGH"
             score := 100
             description := "Sensitive PII detected: " ++
               String.intercalate ", " (check_pii (analyzableText span))
             evidence := "REDACTED" }]
        else ([] : List Alert)).filter (fun al => al.rule == "Prompt Injection") = [] := by
        split
        · simp
        · simp
      rw [hpii, List.append_nil]
      by_cases hs : check_injection (analyzableText span) > 50
      · rw [if_pos hs]
        simp [List.filter]
      · rw [if_neg hs]
        rfl
  refine ⟨check_injection_eq _, hfilter, ?_⟩
  intro h1
  rw [hfilter]
  have hscore : check_injection (analyzableText span) = 40 := by
    rw [check_injection_eq, h1]
    norm_num
  rw [hscore]
  norm_num

/-- Witness for C7: a span whose prompt content matches exactly the
jailbreak pattern; its score is 40 and no injection alert is raised. -/
theorem C7_witness :
    countInj (analyzableText
      (WSpan.mk [("llm.prompts.0.content", .astr "a jailbreak")] [] none none none none none))
      = 1 ∧
    (analyze_span
      (WSpan.mk [("llm.prompts.0.content", .astr "a jailbreak")] [] none none none none none)).filter
      (fun al => al.rule == "Prompt Injection") = [] :=
  ⟨by decide,
   (C7_injection_rule
     (WSpan.mk [("llm.prompts.0.content", .astr "a jailbreak")] [] none none none none none)).2.2
     (by decide)⟩

/-- C9: whenever the PII rule detects at least one type, exactly one
PII Leak alert is generated, CRITICAL when AWS_KEY or SSN is among the
detected types and HIGH otherwise, and its stored evidence is the fixed
string REDACTED, which itself contains no match of any PII pattern (so
the matched text is never stored verbatim). -/
theorem C9_pii_rule (span : WSpan) :
    (check_pii (analyzableText span) ≠ [] →
      (analyze_span span).filter (fun al => al.rule == "PII Leak") =
        [{ rule := "PII Leak"
           severity := if "AWS_KEY" ∈ check_pii (analyzableText span) ∨
               "SSN" ∈ check_pii (analyzableText span) then "CRITICAL" else "HIGH"
           score := 100
           description := "Sensitive PII detected: " ++
             String.intercalate ", " (check_pii (analyzableText span))
           evidence := "REDACTED" }]) ∧
    check_pii "REDACTED" = [] := by
  refine ⟨?_, by decide⟩
  intro htypes
  have hft : analyzableText span ≠ "" := by
    intro h
    rw [h] at htypes
    exact htypes rfl
  unfold analyze_span
  rw [List.filter_append, anomaly_filter_nil span _ (by decide) (by decide),
    List.append_nil]
  rw [if_pos hft, List.filter_append]
  have hinj : (if check_injection (analyzableText span) > 50 then
      [{ rule := "Prompt Injection"
         severity := if check_injection (analyzableText span) > 80 then "HIGH" else "MEDIUM"
         score := check_injection (analyzableText span)
         description := "Potential prompt injection detected in LLM input/output"
         evidence := strTake (analyzableText span) 200 }]
    else ([] : List Alert)).filter (fun al => al.rule == "PII Leak") = [] := by
    split
    · simp
    · simp
  rw [hinj, List.nil_append]
  rw [if_pos htypes]
  simp

/-- Witness for C9: a span whose prompt content contains an SSN; the
single PII alert is CRITICAL with evidence REDACTED. -/
theorem C9_witness :
    (check_pii (analyzableText
      (WSpan.mk [("llm.prompts.0.content", .astr "ssn 123-45-6789")] [] none none none none none))
      ≠ [] ∧
    (analyze_span
      (WSpan.mk [("llm.prompts.0.content", .astr "ssn 123-45-6789")] [] none none none none none)).filter
      (fun al => al.rule == "PII Leak") =
      [{ rule := "PII Leak"
         severity := if "AWS_KEY" ∈ check_pii (analyzableText
             (WSpan.mk [("llm.prompts.0.content", .astr "ssn 123-45-6789")] [] none none none none none)) ∨
             "SSN" ∈ check_pii (analyzableText
             (WSpan.mk [("llm.prompts.0.content", .astr "ssn 123-45-6789")] [] none none none none none))
           then "CRITICAL" else "HIGH"
         score := 100
         description := "Sensitive PII detected: " ++
           String.intercalate ", " (check_pii (analyzableText
             (WSpan.mk [("llm.prompts.0.content", .astr "ssn 123-45-6789")] [] none none none none none)))
         evidence := "REDACTED" }]) ∧
    check_pii "REDACTED" = [] :=
  ⟨⟨by decide,
    (C9_pii_rule
      (WSpan.mk [("llm.prompts.0.content", .astr "ssn 123-45-6789")] [] none none none none none)).1
      (by decide)⟩,
   (C9_pii_rule
      (WSpan.mk [("llm.prompts.0.content", .astr "ssn 123-45-6789")] [] none none none none none)).2⟩

example : scrubString "My SSN is 123-45-6789" = "My SSN is [REDACTED_SSN]" := by decide

example : scrubString "mail a@b.com now" = "mail [REDACTED_EMAIL] now" := by decide

example : scrubString "4111-1111-1111-1111" = "[REDACTED_CC]" := by decide

example : scrubString "call (555) 123-4567" = "call [REDACTED_PHONE]" := by decide

/-- C10: scrub_pii returns a new dictionary with exactly the key
sequence of its input (the input itself, being a value in this pure
model, is unmodified); every non-string and every empty-string value is
returned unchanged, and every non-empty string value is rewritten by
the redaction patterns (scrubString). -/
theorem C10_scrub_pii_frame (attrs : List (String × AVal)) :
    (scrub_pii attrs).map Prod.fst = attrs.map Prod.fst ∧
    (∀ (i : Nat) (kv : String × AVal), attrs[i]? = some kv →
      (scrub_pii attrs)[i]? = some (scrubEntry kv)) := by
  by_cases hnil : attrs = []
  · subst hnil
    refine ⟨rfl, ?_⟩
    intro i kv h
    simp at h
  · have hmap : scrub_pii attrs = attrs.map scrubEntry := by
      unfold scrub_pii
      rw [if_neg hnil]
    constructor
    · rw [hmap, List.map_map]
      apply List.map_congr_left
      intro kv _
      rcases kv with ⟨k, v⟩
      cases v with
      | astr s =>
        by_cases hs : s = "" <;> simp [scrubEntry, hs]
      | aint n => rfl
    · intro i kv h
      rw [hmap, List.getElem?_map, h, Option.map_some']

/-- Witness for C10: an email value is redacted, an integer value and
an empty string value pass through, and the key sequence is kept. -/
theorem C10_witness :
    (scrub_pii [("p", .astr "a@b.co"), ("n", .aint 7), ("e", .astr "")]).map Prod.fst =
      ([("p", AVal.astr "a@b.co"), ("n", .aint 7), ("e", .astr "")]).map Prod.fst ∧
    ([("p", AVal.astr "a@b.co"), ("n", .aint 7), ("e", .astr "")] :
        List (String × AVal))[1]? = some ("n", .aint 7) ∧
    (scrub_pii [("p", .astr "a@b.co"), ("n", .aint 7), ("e", .astr "")])[1]? =
      some ("n", AVal.aint 7) ∧
    (scrub_pii [("p", .astr "a@b.co"), ("n", .aint 7), ("e", .astr "")])[0]? =
      some ("p", AVal.astr "[REDACTED_EMAIL]") ∧
    (scrub_pii [("p", .astr "a@b.co"), ("n", .aint 7), ("e", .astr "")])[2]? =
      some ("e", AVal.astr "") :=
  ⟨(C10_scrub_pii_frame [("p", .astr "a@b.co"), ("n", .aint 7), ("e", .astr "")]).1,
   rfl,
   (C10_scrub_pii_frame [("p", .astr "a@b.co"), ("n", .aint 7), ("e", .astr "")]).2
     1 ("n", .aint 7) rfl,
   by decide,
   by decide⟩

/-- C6 at its failing input: after end, set_attribute and add_event are
ignored as the claim states, but set_status still flips the status and
writes the error.message attribute of the ended span. -/
theorem C6_set_status_after_end_mutates :
    c6Ended.ended = true ∧
    c6Ended.status = SpanStatus.OK ∧
    c6Ended.set_attribute "a" "b" = c6Ended ∧
    c6Ended.add_event "e" [] 3000 = c6Ended ∧
    (c6Ended.set_status SpanStatus.ERROR (some "boom")).status = SpanStatus.ERROR ∧
    dlookup "error.message" (c6Ended.set_status SpanStatus.ERROR (some "boom")).attributes
      = some (.astr "boom") := by
  decide

/-- C5 against the code: a flush is triggered exactly when the buffer
has reached batch_size or at least 1.0 second (not the 5 seconds the
claim states) has passed since the last flush; in particular a span
arriving 2 seconds after the last flush with an empty buffer and
batch_size 100 already triggers a flush. -/
theorem C5_cost_flush_at_one_second :
    (∀ (st : CostWorkerState) (span : WSpan) (now : ℚ),
      ((process_message st true span now).2 = true ↔
        (calculate_cost span ≠ .err ∧
          ((process_message st true span now).1.buffer.length ≥ st.batch_size ∨
            now - st.last_flush ≥ 1)))) ∧
    (process_message ⟨[], 0, 100⟩ true (WSpan.mk [] [] none none none none none) 2).2
      = true := by
  constructor
  · intro st span now
    unfold process_message
    rw [if_neg (by simp)]
    cases hc : calculate_cost span with
    | err => simp
    | skip => simp
    | row r => simp
  · have hc : calculate_cost (WSpan.mk [] [] none none none none none) = .skip := by
      decide
    unfold process_message
    rw [if_neg (by simp), hc]
    simp only
    have h2 : (2 : ℚ) - 0 ≥ 1 := by norm_num
    simp [h2]

/-- C8: for a span with an llm.model string attribute and integer token
attributes (total absent, so it defaults to prompt + completion) whose
tokens are not all zero, the pricing entry used is the first catalog
key that is a substring of the lowercased model name — an unknown model
is skipped — and the recorded cost is prompt/1000 times the input price
plus completion/1000 times the output price, with the row carrying the
lowercased model and the token counts. -/
theorem C8_cost_pricing (span : WSpan) (ms : String) (pt ct : Int)
    (hm : dlookup "llm.model" span.attributes = some (.astr ms))
    (hml : strLower ms ≠ "")
    (hpt : dlookup "llm.usage.prompt_tokens" span.attributes = some (.aint pt))
    (hct : dlookup "llm.usage.completion_tokens" span.attributes = some (.aint ct))
    (htt : dlookup "llm.usage.total_tokens" span.attributes = none)
    (hnz : pt + ct ≠ 0) :
    (PRICING.find? (fun p => containsSub p.1 (strLower ms)) = none →
      calculate_cost span = .skip) ∧
    (∀ key pin pout, PRICING.find? (fun p => containsSub p.1 (strLower ms))
        = some (key, pin, pout) →
      calculate_cost span = .row
        { project_id := span.project_id.getD "unknown"
          model := strLower ms
          span_kind := "llm"
          timestamp := span.start_time
          prompt_tokens := pt
          completion_tokens := ct
          total_tokens := pt + ct
          cost_usd := (pt : ℚ) / 1000 * pin + (ct : ℚ) / 1000 * pout }) := by
  constructor
  · intro hfind
    simp only [calculate_cost, hm, hpt, hct, htt, Option.getD_some, Option.getD_none, pyInt]
    rw [if_neg hml, if_neg hnz, hfind]
  · intro key pin pout hfind
    simp only [calculate_cost, hm, hpt, hct, htt, Option.getD_some, Option.getD_none, pyInt]
    rw [if_neg hml, if_neg hnz, hfind]

/-- Witness for C8: the gpt-4 entry is the first substring match for
gpt-4-0613 and the recorded cost is exactly 0.06 USD. -/
theorem C8_witness :
    (dlookup "llm.model" c8Span.attributes = some (.astr "gpt-4-0613") ∧
     strLower "gpt-4-0613" ≠ "" ∧
     dlookup "llm.usage.prompt_tokens" c8Span.attributes = some (.aint 1000) ∧
     dlookup "llm.usage.completion_tokens" c8Span.attributes = some (.aint 500) ∧
     dlookup "llm.usage.total_tokens" c8Span.attributes = none ∧
     ((1000 : Int) + 500 ≠ 0)) ∧
    PRICING.find? (fun p => containsSub p.1 (strLower "gpt-4-0613"))
      = some ("gpt-4", 0.03, 0.06) ∧
    calculate_cost c8Span = .row
      { project_id := "P"
        model := "gpt-4-0613"
        span_kind := "llm"
        timestamp := none
        prompt_tokens := 1000
        completion_tokens := 500
        total_tokens := 1500
        cost_usd := 0.06 } := by
  refine ⟨⟨rfl, by decide, rfl, rfl, rfl, by decide⟩, rfl, ?_⟩
  have h := (C8_cost_pricing c8Span "gpt-4-0613" 1000 500 rfl (by decide) rfl rfl rfl
      (by decide)).2 "gpt-4" 0.03 0.06 rfl
  have hcost : ((1000 : Int) : ℚ) / 1000 * 0.03 + ((500 : Int) : ℚ) / 1000 * 0.06
      = (0.06 : ℚ) := by
    push_cast
    norm_num
  rw [hcost] at h
  exact h

end AgentStack
